import Mathlib

/-!
Verification development for the ADB file-handler core
(`src/core/adb_command.py`, `src/core/progress_tracker.py`,
`src/core/file_transfer.py`, `src/utils/file_deduplication.py`).

The Python code is shallowly embedded: pure functions become Lean
functions on `List Char` / `Nat` / `Int` / `Rat`; the stateful transfer
loop becomes explicit state passing; fallible operations return
`Option`.  Python's binary floating point (used by the `int((a/b)*100)`
fraction computation in `parse_progress`) is modelled exactly, as
round-to-nearest-even IEEE-754 double arithmetic over the rationals.
-/

namespace AdbCore

/-! ## Character classes (ASCII fragment of Python's `\d`, `\s`, `\w`) -/

def isDigitC (c : Char) : Bool := '0' ≤ c && c ≤ '9'

def isSpaceC (c : Char) : Bool :=
  c = ' ' || c = '\t' || c = '\n' || c = '\r' || c = '\x0b' || c = '\x0c'

def isWordC (c : Char) : Bool :=
  ('a' ≤ c && c ≤ 'z') || ('A' ≤ c && c ≤ 'Z') || isDigitC c || c = '_'

/-- Numeric value of a list of decimal digit characters. -/
def digitsVal (ds : List Char) : Nat :=
  ds.foldl (fun n c => 10 * n + (c.toNat - 48)) 0

/-- Case-insensitive match of the literal `pat` as a prefix of `cs`;
returns the rest of the input on success. -/
def matchCI : List Char → List Char → Option (List Char)
  | [], cs => some cs
  | _ :: _, [] => none
  | p :: ps, c :: cs => if c.toLower = p.toLower then matchCI ps cs else none

/-- Case-sensitive match of the literal `pat` as a prefix of `cs`. -/
def matchCS : List Char → List Char → Option (List Char)
  | [], cs => some cs
  | _ :: _, [] => none
  | p :: ps, c :: cs => if c = p then matchCS ps cs else none

/-! ## The seven regex searches of `ADBCommandRunner.parse_progress`

Each Python `re.search` is embedded as a leftmost scan that tries a
match attempt at every start position.  Within an attempt, the only
backtracking the patterns need is the greedy `\d{1,3}` followed by a
literal `%`: a digit run longer than 3 can never match because every
shorter greedy choice is followed by another digit, so an attempt
succeeds exactly when the digit run at the group start has length 1–3
and is followed by the literal. -/

/-- Attempt `\((\d{1,3})%\)` at the head of the input. -/
def parenPctAt (cs : List Char) : Option Nat :=
  match cs with
  | '(' :: rest =>
    let ds := rest.takeWhile isDigitC
    let r := rest.dropWhile isDigitC
    if 1 ≤ ds.length && ds.length ≤ 3 then
      match r with
      | '%' :: ')' :: _ => some (digitsVal ds)
      | _ => none
    else none
  | _ => none

/-- `re.search(r"\((\d{1,3})%\)", line)`. -/
def searchParenPct : List Char → Option Nat
  | [] => none
  | c :: t =>
    match parenPctAt (c :: t) with
    | some v => some v
    | none => searchParenPct t

/-- Attempt `(\d{1,3})%` at the head of the input (shared by patterns
2 and 6): succeeds iff the digit run here has length 1–3 and is
directly followed by `%`; returns the value and the rest after `%`. -/
def pctAt (cs : List Char) : Option (Nat × List Char) :=
  let ds := cs.takeWhile isDigitC
  let r := cs.dropWhile isDigitC
  if 1 ≤ ds.length && ds.length ≤ 3 then
    match r with
    | '%' :: rest => some (digitsVal ds, rest)
    | _ => none
  else none

/-- Attempt `(\d{1,3})%\s+complete` (case-insensitive) at the head. -/
def pctCompleteAt (cs : List Char) : Option Nat :=
  match pctAt cs with
  | none => none
  | some (v, rest) =>
    let sp := rest.takeWhile isSpaceC
    let r2 := rest.dropWhile isSpaceC
    if 1 ≤ sp.length then
      match matchCI "complete".data r2 with
      | some _ => some v
      | none => none
    else none

/-- `re.search(r"(\d{1,3})%\s+complete", line, re.IGNORECASE)`. -/
def searchPctComplete : List Char → Option Nat
  | [] => none
  | c :: t =>
    match pctCompleteAt (c :: t) with
    | some v => some v
    | none => searchPctComplete t

/-- Attempt `transferred\s+(\d{1,3})%` (case-insensitive) at the head. -/
def transferredPctAt (cs : List Char) : Option Nat :=
  match matchCI "transferred".data cs with
  | none => none
  | some rest =>
    let sp := rest.takeWhile isSpaceC
    let r2 := rest.dropWhile isSpaceC
    if 1 ≤ sp.length then
      match pctAt r2 with
      | some (v, _) => some v
      | none => none
    else none

/-- `re.search(r"transferred\s+(\d{1,3})%", line, re.IGNORECASE)`. -/
def searchTransferredPct : List Char → Option Nat
  | [] => none
  | c :: t =>
    match transferredPctAt (c :: t) with
    | some v => some v
    | none => searchTransferredPct t

/-- The lazy `.*?\((\d{1,3})%\)` tail of pattern 4: find the earliest
following `\((\d{1,3})%\)` match, with `.` not crossing a newline. -/
def lazyDotParenPct : List Char → Option Nat
  | [] => none
  | c :: t =>
    match parenPctAt (c :: t) with
    | some v => some v
    | none => if c = '\n' then none else lazyDotParenPct t

/-- Attempt `\d+\s+files?\s+(?:pulled|pushed).*?\((\d{1,3})%\)`
(case-insensitive) at the head. -/
def filesPulledPctAt (cs : List Char) : Option Nat :=
  let ds := cs.takeWhile isDigitC
  let r1 := cs.dropWhile isDigitC
  if 1 ≤ ds.length then
    let sp := r1.takeWhile isSpaceC
    let r2 := r1.dropWhile isSpaceC
    if 1 ≤ sp.length then
      match matchCI "file".data r2 with
      | none => none
      | some r3 =>
        let r4 := match r3 with
          | c :: rest => if c.toLower = 's' then rest else r3
          | [] => r3
        let sp2 := r4.takeWhile isSpaceC
        let r5 := r4.dropWhile isSpaceC
        if 1 ≤ sp2.length then
          match matchCI "pulled".data r5 with
          | some r6 => lazyDotParenPct r6
          | none =>
            match matchCI "pushed".data r5 with
            | some r6 => lazyDotParenPct r6
            | none => none
        else none
    else none
  else none

/-- `re.search(r"\d+\s+files?\s+(?:pulled|pushed).*?\((\d{1,3})%\)",
line, re.IGNORECASE)`. -/
def searchFilesPulledPct : List Char → Option Nat
  | [] => none
  | c :: t =>
    match filesPulledPctAt (c :: t) with
    | some v => some v
    | none => searchFilesPulledPct t

/-- Attempt `(\d+)\s*/\s*(\d+)` at the head; returns both groups. -/
def fractionAt (cs : List Char) : Option (Nat × Nat) :=
  let ds := cs.takeWhile isDigitC
  let r1 := cs.dropWhile isDigitC
  if 1 ≤ ds.length then
    let r2 := r1.dropWhile isSpaceC
    match r2 with
    | '/' :: r3 =>
      let r4 := r3.dropWhile isSpaceC
      let ds2 := r4.takeWhile isDigitC
      if 1 ≤ ds2.length then some (digitsVal ds, digitsVal ds2) else none
    | _ => none
  else none

/-- `re.search(r"(\d+)\s*/\s*(\d+)", line)`. -/
def searchFraction : List Char → Option (Nat × Nat)
  | [] => none
  | c :: t =>
    match fractionAt (c :: t) with
    | some v => some v
    | none => searchFraction t

/-- Attempt `transferr?ing` (case-insensitive) at the head. -/
def transferringAt (cs : List Char) : Bool :=
  match matchCI "transferring".data cs with
  | some _ => true
  | none =>
    match matchCI "transfering".data cs with
    | some _ => true
    | none => false

/-- `re.search(r"transferr?ing", line, re.IGNORECASE)` as a Boolean. -/
def searchTransferring : List Char → Bool
  | [] => false
  | c :: t => transferringAt (c :: t) || searchTransferring t

/-- `re.search(r"(\d{1,3})%", line)`. -/
def searchPct : List Char → Option Nat
  | [] => none
  | c :: t =>
    match pctAt (c :: t) with
    | some (v, _) => some v
    | none => searchPct t

/-- Attempt `\(\s*\d+\s+bytes\b` (case-sensitive) at the head. -/
def bytesAt (cs : List Char) : Bool :=
  match cs with
  | '(' :: rest =>
    let r1 := rest.dropWhile isSpaceC
    let ds := r1.takeWhile isDigitC
    let r2 := r1.dropWhile isDigitC
    if 1 ≤ ds.length then
      let sp := r2.takeWhile isSpaceC
      let r3 := r2.dropWhile isSpaceC
      if 1 ≤ sp.length then
        match matchCS "bytes".data r3 with
        | some r4 =>
          match r4 with
          | [] => true
          | c :: _ => !(isWordC c)
        | none => false
      else false
    else false
  | _ => false

/-- `re.search(r"\(\s*\d+\s+bytes\b", line)` as a Boolean. -/
def searchBytes : List Char → Bool
  | [] => false
  | c :: t => bytesAt (c :: t) || searchBytes t

/-! ## Exact model of Python's binary floating point for `int((a/b)*100)`

CPython computes `a / b` on machine-word or big integers as the
correctly rounded (round-to-nearest, ties-to-even) IEEE-754 double of
the exact quotient, raising `OverflowError` when the rounded value does
not fit; `x * 100` is an exact conversion of `100` followed by a
correctly rounded double multiplication (overflowing to infinity); and
`int(x)` truncates toward zero, raising `OverflowError` on infinity.
Both exceptional paths fall into the surrounding `except: pass`, so
they are modelled as `none`. -/

/-- Round `num / den` (with `den > 0`) to the nearest integer,
ties to even. -/
def roundHalfEven (num den : Nat) : Nat :=
  let q := num / den
  let r := num % den
  if 2 * r < den then q
  else if den < 2 * r then q + 1
  else if q % 2 = 0 then q else q + 1

/-- Decide `2 ^ L ≤ a / b` for naturals `a, b ≥ 1` by
cross-multiplication. -/
def pow2LeRat (L : Int) (a b : Nat) : Bool :=
  if 0 ≤ L then b * 2 ^ L.toNat ≤ a else b ≤ a * 2 ^ (-L).toNat

/-- Fuel-driven `⌊log₂⌋` (structural recursion, so that it reduces
inside the kernel). -/
def log2Fuel : Nat → Nat → Nat
  | 0, _ => 0
  | fuel + 1, n => if 2 ≤ n then log2Fuel fuel (n / 2) + 1 else 0

/-- `⌊log₂ n⌋` for `n ≥ 1` (`0` for `n = 0`). -/
def natLog2 (n : Nat) : Nat := log2Fuel n n

/-- `⌊log₂ (a / b)⌋` for naturals `a, b ≥ 1`. -/
def ratLog2 (a b : Nat) : Int :=
  let L0 : Int := (natLog2 a : Int) - (natLog2 b : Int)
  if pow2LeRat L0 a b then L0 else L0 - 1

/-- Round the positive rational `a / b` (`a, b ≥ 1`) to the nearest
IEEE-754 binary64 value, ties to even, as a pair `(m, e)` denoting
`m * 2 ^ e`; `none` on overflow (absolute value rounds to `≥ 2^1024`).
Subnormal results use the fixed exponent `-1074`. -/
def doubleRound (a b : Nat) : Option (Nat × Int) :=
  let L := ratLog2 a b
  let e : Int := max (L - 52) (-1074)
  let m : Nat :=
    if 0 ≤ e then roundHalfEven a (b * 2 ^ e.toNat)
    else roundHalfEven (a * 2 ^ (-e).toNat) b
  if 0 ≤ e ∧ 2 ^ 1024 ≤ m * 2 ^ e.toNat then none
  else some (m, e)

/-- Python `a / b` on nonnegative integers: correctly rounded double
division; `none` on `b = 0` (guarded by `if b > 0` in the source) and
on overflow (both continue past the fraction block). -/
def pyDiv (a b : Nat) : Option (Nat × Int) :=
  if b = 0 then none
  else if a = 0 then some (0, 0)
  else doubleRound a b

/-- Python `x * 100` on the double `m * 2 ^ e`: exact product,
re-rounded to a double; `none` on overflow (infinity, whose later
`int()` raises into the `except`). -/
def pyMul100 (m : Nat) (e : Int) : Option (Nat × Int) :=
  if m = 0 then some (0, 0)
  else if 0 ≤ e then doubleRound (m * 100 * 2 ^ e.toNat) 1
  else doubleRound (m * 100) (2 ^ (-e).toNat)

/-- Python `int(x)` on the nonnegative double `m * 2 ^ e`:
truncation toward zero. -/
def truncFloat (m : Nat) (e : Int) : Nat :=
  if 0 ≤ e then m * 2 ^ e.toNat else m / 2 ^ (-e).toNat

/-- The fraction branch of `parse_progress`:
`pct = int((a / b) * 100)` clamped to `[0, 100]`, with `b = 0` and
float overflow falling through (`none`). -/
def pyFracPct (a b : Nat) : Option Nat :=
  (pyDiv a b).bind fun me =>
    (pyMul100 me.1 me.2).bind fun me2 =>
      let t := truncFloat me2.1 me2.2
      some (if 100 < t then 100 else t)

/-! ## `ADBCommandRunner.parse_progress`

The source tries the seven patterns in order with early `return`:
each block either returns a value or falls through to the next.  A
percentage match whose value lies outside `0..100` falls through. -/

/-- Early-return composition: the first block to produce a value
wins, otherwise control falls through to the next block. -/
def firstOf (a b : Option Nat) : Option Nat :=
  match a with
  | some p => some p
  | none => b

/-- The range gate of the source's percentage blocks
(`if 0 <= pct <= 100: return pct`): a match is kept only when its
value lies in `0..100`, otherwise the block falls through. -/
def pctGate (r : Option Nat) : Option Nat :=
  r.bind (fun p => if p ≤ 100 then some p else none)

/-- The value (if any) produced by the fraction block
(`b = 0` and float overflow fall through). -/
def fracGate (r : Option (Nat × Nat)) : Option Nat :=
  r.bind (fun ab => pyFracPct ab.1 ab.2)

/-- The value (if any) produced by the `transferr?ing` block. -/
def transferringGate (found : Bool) (r : Option Nat) : Option Nat :=
  if found then pctGate r else none

/-- Patterns 6 and 7: the `transferr?ing` + `(\d{1,3})%` pair, then
the `bytes` completion marker, then no signal. -/
def parseChain6 (cs : List Char) : Option Nat :=
  firstOf (transferringGate (searchTransferring cs) (searchPct cs))
    (if searchBytes cs then some 100 else none)

/-- Pattern 5: the `(\d+)\s*/\s*(\d+)` fraction. -/
def parseChain5 (cs : List Char) : Option Nat :=
  firstOf (fracGate (searchFraction cs)) (parseChain6 cs)

/-- Pattern 4: `\d+\s+files?\s+(?:pulled|pushed).*?\((\d{1,3})%\)`. -/
def parseChain4 (cs : List Char) : Option Nat :=
  firstOf (pctGate (searchFilesPulledPct cs)) (parseChain5 cs)

/-- Pattern 3: `transferred\s+(\d{1,3})%`. -/
def parseChain3 (cs : List Char) : Option Nat :=
  firstOf (pctGate (searchTransferredPct cs)) (parseChain4 cs)

/-- Pattern 2: `(\d{1,3})%\s+complete`. -/
def parseChain2 (cs : List Char) : Option Nat :=
  firstOf (pctGate (searchPctComplete cs)) (parseChain3 cs)

/-- `ADBCommandRunner.parse_progress`: parse a progress percentage from
one line of adb output, or return no signal. -/
def parse_progress (line : String) : Option Nat :=
  firstOf (pctGate (searchParenPct line.data)) (parseChain2 line.data)

/-! ## `TransferProgressEstimator`

Elapsed times are passed explicitly (the source reads `time.time()`);
they are modelled as rationals, and Python's `int()` on the nonnegative
float result as the floor.  Progress values are Python ints (`Int`). -/

/-- `TransferProgressEstimator.estimate_progress_from_time` with the
current elapsed time `now - start_time` passed in. -/
def estimate_progress_from_time (elapsed_time : ℚ) (last_progress : ℤ)
    (elapsed_threshold : ℚ) (max_increment max_progress : ℤ) : Option ℤ :=
  if elapsed_threshold ≤ elapsed_time ∧ last_progress < max_progress then
    some (min (last_progress + max_increment) max_progress)
  else none

/-- `TransferProgressEstimator.estimate_complex_progress`. -/
def estimate_complex_progress (line_count : ℕ) (elapsed_time : ℚ)
    (last_progress : ℤ) : Option ℤ :=
  if 2 ≤ elapsed_time ∧ last_progress < 95 then
    if 100 < line_count then
      some ⌊min (min ((line_count : ℚ) / 1000) 50 + min (elapsed_time / 60) 40) 95⌋
    else
      some (min (last_progress + 10) 95)
  else none

/-! ## The no-signal branch of `_execute_folder_transfer_command`

One step per output line for which `parse_progress` yields no signal.
Times are elapsed seconds since `start_time` (so `start_time = 0`);
each line carries the `current_time` read at the top of the loop body.
`isPull` selects the `operation_name == "Transfer"` (pull) branch;
the other branch is the push path. -/

structure FolderState where
  lineCount : ℕ
  lastProgress : ℤ
  lastUpdate : ℚ
  deriving Repr, DecidableEq

/-- State at the top of the streaming loop: counters zero, progress 0,
`last_update_time = start_time`. -/
def initFolderState : FolderState := ⟨0, 0, 0⟩

/-- The `elif line_count % 50 == 0 and last_progress < 90` fallback of
the pull branch, for the line numbered `st.lineCount + 1`
(`increment = max(1, min(5, 90 // (line_count // 50 + 1)))`). -/
def folderElif (st : FolderState) : Option ℤ :=
  if (st.lineCount + 1) % 50 = 0 ∧ st.lastProgress < 90 then
    some (min (st.lastProgress +
      max 1 (min 5 ((90 : ℤ) / ((((st.lineCount + 1) / 50 + 1 : ℕ)) : ℤ)))) 90)
  else none

/-- The update decision (`should_update`, `new_progress`) of the
no-signal branch, for the line numbered `st.lineCount + 1` read at
elapsed time `t` (so `elapsed_time = t` and
`time_since_last_update = t - st.lastUpdate`). -/
def folderUpdate (isPull : Bool) (st : FolderState) (t : ℚ) : Option ℤ :=
  if isPull then
    match estimate_complex_progress (st.lineCount + 1) t st.lastProgress with
    | some est => if 2 ≤ t - st.lastUpdate then some est else folderElif st
    | none => folderElif st
  else
    estimate_progress_from_time t st.lastProgress 1 20 90

/-- The `pct is None` branch of the folder-transfer loop body for one
line read at elapsed time `t`: commit the candidate only when it is
strictly greater than the current progress. -/
def folderStepNoSignal (isPull : Bool) (st : FolderState) (t : ℚ) : FolderState :=
  let lc := st.lineCount + 1
  match folderUpdate isPull st t with
  | some np =>
    if st.lastProgress < np then ⟨lc, np, t⟩
    else ⟨lc, st.lastProgress, st.lastUpdate⟩
  | none => ⟨lc, st.lastProgress, st.lastUpdate⟩

/-- A whole run of no-signal lines read at the given elapsed times. -/
def runNoSignal (isPull : Bool) (ts : List ℚ) : FolderState :=
  ts.foldl (folderStepNoSignal isPull) initFolderState

/-- Progress reported after `proc.wait()`: a zero return code forces
`update_progress(100)`; otherwise the last value stands. -/
def finishProgress (returncode : ℤ) (st : FolderState) : ℤ :=
  if returncode = 0 then 100 else st.lastProgress

/-! ## `FileDeduplicator.find_duplicate_files`

The per-file digest computation (`compute_local_file_hash` /
`compute_remote_file_hash`) is abstracted as an oracle
`String → Option String`; `none` is a swallowed per-file failure.  The
hash-map build keeps an entry only when the digest is truthy
(non-`None` and non-empty), mirroring `if file_hash:`. -/

/-- Python truthiness filter on an optional digest. -/
def truthy (h : Option String) : Option String :=
  match h with
  | some s => if s = "" then none else some s
  | none => none

/-- `set(target_hashes.values())` as a list of truthy target digests. -/
def targetHashValues (oracle : String → Option String)
    (target_files : List String) : List String :=
  target_files.filterMap (fun t => truthy (oracle t))

/-- The classification applied to one source path:
`source_hash and source_hash in target_hash_values`. -/
def isDuplicate (oracle : String → Option String) (tvals : List String)
    (s : String) : Bool :=
  match truthy (oracle s) with
  | some h => tvals.contains h
  | none => false

/-- The partition loop over `source_files`, preserving order. -/
def fdfLoop (oracle : String → Option String) (tvals : List String) :
    List String → List String × List String
  | [] => ([], [])
  | s :: rest =>
    let r := fdfLoop oracle tvals rest
    if isDuplicate oracle tvals s then (r.1, s :: r.2) else (s :: r.1, r.2)

/-- `FileDeduplicator.find_duplicate_files`: returns
`(files_to_transfer, duplicate_files)`. -/
def find_duplicate_files (oracle : String → Option String)
    (source_files target_files : List String) : List String × List String :=
  fdfLoop oracle (targetHashValues oracle target_files) source_files

/-! ## `cancel_transfer` / `cancel_current_operation`

The child process handle is modelled by its observable behaviour at
cancellation time: the non-blocking `poll()` result (an exit code when
the process has already finished) and whether `wait(timeout=2)` returns
within the grace period after `terminate()`.  The OS calls issued are
recorded as a trace; the Python `try/except` means the function always
returns instead of raising. -/

structure ChildProc where
  poll : Option ℤ
  gracefulExit : Bool
  deriving Repr, DecidableEq

inductive CancelAct where
  | terminate : CancelAct
  | waitGrace : ℕ → CancelAct
  | kill : CancelAct
  | waitBlock : CancelAct
  deriving Repr, DecidableEq

/-- `ADBFileTransfer.cancel_transfer` (identical logic to
`ADBCommandRunner.cancel_current_operation`): returns the Boolean
result, the handle slot afterward, and the trace of process calls. -/
def cancel_transfer (current_process : Option ChildProc) :
    Bool × Option ChildProc × List CancelAct :=
  match current_process with
  | none => (false, none, [])
  | some p =>
    if p.poll.isSome then (false, none, [])
    else
      (true, none,
        [CancelAct.terminate, CancelAct.waitGrace 2] ++
          (if p.gracefulExit then [] else [CancelAct.kill, CancelAct.waitBlock]))

/-! ## `pull_file` / `pull_folder`

Host-filesystem operations (`os.path.normpath`, `os.path.exists`,
`os.path.dirname`) and the adb runner's return code are abstracted as
an environment; the side effects attempted after the existing-target
check are recorded as a trace. -/

structure FsEnv where
  normpath : String → String
  pathExists : String → Bool
  dirname : String → String
  runAdbRc : List String → ℤ

inductive FsAct where
  | makedirs : String → FsAct
  | adb : List String → FsAct
  deriving Repr, DecidableEq

/-- `ADBFileTransfer.pull_file`: returns success and the trace of
filesystem/adb actions attempted. -/
def pull_file (env : FsEnv) (remote_file_path local_file_path : String) :
    Bool × List FsAct :=
  let localN := env.normpath local_file_path
  let remoteS := remote_file_path.trim
  if env.pathExists localN then (false, [])
  else
    let dir := env.dirname localN
    let mk : List FsAct := if dir = "" then [] else [FsAct.makedirs dir]
    let rc := env.runAdbRc ["pull", remoteS, localN]
    (rc = 0, mk ++ [FsAct.adb ["pull", remoteS, localN]])

/-- `ADBFileTransfer.pull_folder`. -/
def pull_folder (env : FsEnv) (remote_path local_path : String) :
    Bool × List FsAct :=
  let localN := env.normpath local_path
  let remoteS := remote_path.trim
  if env.pathExists localN then (false, [])
  else
    let rc := env.runAdbRc ["pull", remoteS, localN]
    (rc = 0, [FsAct.makedirs localN, FsAct.adb ["pull", remoteS, localN]])

/-! ## Concrete instances used by witnesses -/

/-- The digest oracle of the spec's planner example: `a.txt ↦ H1`,
`b.txt ↦ H2` locally, `r1.txt ↦ H1` remotely; anything else fails. -/
def exampleOracle : String → Option String := fun p =>
  if p = "a.txt" then some "H1"
  else if p = "b.txt" then some "H2"
  else if p = "r1.txt" then some "H1"
  else none

/-- An environment whose filesystem reports every path as existing. -/
def existingTargetEnv : FsEnv :=
  { normpath := id
    pathExists := fun _ => true
    dirname := fun _ => ""
    runAdbRc := fun _ => 0 }

/-! ## Helper lemmas about `parse_progress` -/

theorem firstOf_some_left (a b : Option Nat) (p : Nat) (h : a = some p) :
    firstOf a b = some p := by
  subst h; rfl

theorem firstOf_none_left (a b : Option Nat) (h : a = none) :
    firstOf a b = b := by
  subst h; rfl

theorem firstOf_le (a b : Option Nat)
    (ha : ∀ p, a = some p → p ≤ 100) (hb : ∀ p, b = some p → p ≤ 100) :
    ∀ p, firstOf a b = some p → p ≤ 100 := by
  intro p h
  cases a with
  | none => exact hb p h
  | some v => exact ha p h

theorem pctGate_le (r : Option Nat) : ∀ p, pctGate r = some p → p ≤ 100 := by
  intro p h
  cases r with
  | none => exact absurd h (by simp [pctGate])
  | some v =>
    simp only [pctGate, Option.some_bind] at h
    split at h
    · cases h; assumption
    · exact absurd h (by simp)

theorem pyFracPct_le (a b : Nat) : ∀ p, pyFracPct a b = some p → p ≤ 100 := by
  intro p h
  unfold pyFracPct at h
  cases hd : pyDiv a b with
  | none => rw [hd] at h; exact absurd h (by simp)
  | some me =>
    rw [hd] at h
    simp only [Option.some_bind] at h
    cases hm : pyMul100 me.1 me.2 with
    | none => rw [hm] at h; exact absurd h (by simp)
    | some me2 =>
      rw [hm] at h
      simp only [Option.some_bind, Option.some.injEq] at h
      subst h
      split <;> omega

theorem fracGate_le (r : Option (Nat × Nat)) :
    ∀ p, fracGate r = some p → p ≤ 100 := by
  intro p h
  cases r with
  | none => exact absurd h (by simp [fracGate])
  | some ab =>
    simp only [fracGate, Option.some_bind] at h
    exact pyFracPct_le ab.1 ab.2 p h

theorem transferringGate_le (found : Bool) (r : Option Nat) :
    ∀ p, transferringGate found r = some p → p ≤ 100 := by
  intro p h
  unfold transferringGate at h
  split at h
  · exact pctGate_le r p h
  · exact absurd h (by simp)

theorem parseChain6_le (cs : List Char) :
    ∀ p, parseChain6 cs = some p → p ≤ 100 := by
  refine firstOf_le _ _ (transferringGate_le _ _) ?_
  intro p h
  split at h
  · cases h; omega
  · exact absurd h (by simp)

theorem parseChain5_le (cs : List Char) :
    ∀ p, parseChain5 cs = some p → p ≤ 100 :=
  firstOf_le _ _ (fracGate_le _) (parseChain6_le cs)

theorem parseChain4_le (cs : List Char) :
    ∀ p, parseChain4 cs = some p → p ≤ 100 :=
  firstOf_le _ _ (pctGate_le _) (parseChain5_le cs)

theorem parseChain3_le (cs : List Char) :
    ∀ p, parseChain3 cs = some p → p ≤ 100 :=
  firstOf_le _ _ (pctGate_le _) (parseChain4_le cs)

theorem parseChain2_le (cs : List Char) :
    ∀ p, parseChain2 cs = some p → p ≤ 100 :=
  firstOf_le _ _ (pctGate_le _) (parseChain3_le cs)

theorem parse_progress_le_aux (s : String) :
    ∀ p, parse_progress s = some p → p ≤ 100 :=
  firstOf_le _ _ (pctGate_le _) (parseChain2_le s.data)

/-! ## Helper lemmas about the estimator and the no-signal loop -/

theorem estimate_complex_progress_le (lc : ℕ) (e : ℚ) (lp v : ℤ)
    (h : estimate_complex_progress lc e lp = some v) : v ≤ 95 := by
  unfold estimate_complex_progress at h
  split at h
  · split at h
    · cases h
      have hle : min (min ((lc : ℚ) / 1000) 50 + min (e / 60) 40) 95 ≤ ((95 : ℤ) : ℚ) := by
        push_cast
        exact min_le_right _ _
      have := Int.floor_le_floor hle
      simpa using this
    · cases h
      exact min_le_right _ _
  · exact absurd h (by simp)

theorem estimate_progress_from_time_le (e : ℚ) (lp : ℤ) (th : ℚ) (inc mx v : ℤ)
    (h : estimate_progress_from_time e lp th inc mx = some v) : v ≤ mx := by
  unfold estimate_progress_from_time at h
  split at h
  · cases h
    exact min_le_right _ _
  · exact absurd h (by simp)

theorem folderElif_le (st : FolderState) (np : ℤ)
    (h : folderElif st = some np) : np ≤ 95 := by
  unfold folderElif at h
  split at h
  · cases h
    have := min_le_right (st.lastProgress +
      max 1 (min 5 ((90 : ℤ) / ((((st.lineCount + 1) / 50 + 1 : ℕ)) : ℤ)))) (90 : ℤ)
    omega
  · exact absurd h (by simp)

theorem folderUpdate_le (isPull : Bool) (st : FolderState) (t : ℚ) (np : ℤ)
    (h : folderUpdate isPull st t = some np) : np ≤ 95 := by
  unfold folderUpdate at h
  split at h
  · -- pull branch
    split at h
    · -- complex estimate produced a value
      split at h
      · next heq _ =>
        cases h
        exact estimate_complex_progress_le _ _ _ _ heq
      · exact folderElif_le st np h
    · exact folderElif_le st np h
  · -- push branch
    have := estimate_progress_from_time_le t st.lastProgress 1 20 90 np h
    omega

theorem folderStep_mono (isPull : Bool) (st : FolderState) (t : ℚ) :
    st.lastProgress ≤ (folderStepNoSignal isPull st t).lastProgress := by
  unfold folderStepNoSignal
  split
  · split
    · next hlt => simpa using le_of_lt hlt
    · simp
  · simp

theorem folderStep_le (isPull : Bool) (st : FolderState) (t : ℚ)
    (h : st.lastProgress ≤ 95) :
    (folderStepNoSignal isPull st t).lastProgress ≤ 95 := by
  unfold folderStepNoSignal
  split
  · next np heq =>
    split
    · simpa using folderUpdate_le isPull st t np heq
    · simpa using h
  · simpa using h

theorem foldl_folderStep_le (isPull : Bool) (ts : List ℚ) (st : FolderState)
    (h : st.lastProgress ≤ 95) :
    (ts.foldl (folderStepNoSignal isPull) st).lastProgress ≤ 95 := by
  induction ts generalizing st with
  | nil => exact h
  | cons t ts ih => exact ih _ (folderStep_le isPull st t h)

theorem runNoSignal_le (isPull : Bool) (ts : List ℚ) :
    (runNoSignal isPull ts).lastProgress ≤ 95 :=
  foldl_folderStep_le isPull ts initFolderState (by decide)

/-! ## The claims -/

/-- C1: during one folder-transfer run, over any sequence of output
lines for which `parse_progress` yields no signal (read at arbitrary
elapsed times), `last_progress` is non-decreasing, never exceeds 95
before the child process exits, and a zero exit status forces the
reported progress to exactly 100. -/
theorem claim_C1_noSignal_progress_monotone_capped_then_100
    (isPull : Bool) (ts : List ℚ) (t : ℚ) :
    (runNoSignal isPull ts).lastProgress ≤
      (folderStepNoSignal isPull (runNoSignal isPull ts) t).lastProgress ∧
    (runNoSignal isPull ts).lastProgress ≤ 95 ∧
    finishProgress 0 (runNoSignal isPull ts) = 100 :=
  ⟨folderStep_mono isPull (runNoSignal isPull ts) t,
   runNoSignal_le isPull ts,
   rfl⟩

/-- C5: for a no-signal line with `line_count = 150`, elapsed time 30 s
and `last_progress < 95`, the time-based heuristic computes its
candidate exactly as `min(min(150/1000, 50) + min(30/60, 40), 95)
= 0.65 = 13/20`, which `int()` truncation reduces to `0`. -/
theorem claim_C5_estimator_boundary_formula (lp : ℤ) (h : lp < 95) :
    estimate_complex_progress 150 30 lp =
      some ⌊min (min ((150 : ℚ) / 1000) 50 + min ((30 : ℚ) / 60) 40) 95⌋ ∧
    min (min ((150 : ℚ) / 1000) 50 + min ((30 : ℚ) / 60) 40) 95 = 13 / 20 ∧
    estimate_complex_progress 150 30 lp = some 0 := by
  have hval : min (min ((150 : ℚ) / 1000) 50 + min ((30 : ℚ) / 60) 40) 95 = 13 / 20 := by
    rw [min_eq_left (by norm_num), min_eq_left (by norm_num), min_eq_left (by norm_num)]
    norm_num
  have hfl : ⌊(13 / 20 : ℚ)⌋ = 0 := by
    rw [Int.floor_eq_zero_iff]
    constructor <;> norm_num
  have heq : estimate_complex_progress 150 30 lp =
      some ⌊min (min ((150 : ℚ) / 1000) 50 + min ((30 : ℚ) / 60) 40) 95⌋ := by
    unfold estimate_complex_progress
    rw [if_pos ⟨by norm_num, h⟩, if_pos (by norm_num)]
    norm_num
  refine ⟨heq, hval, ?_⟩
  rw [heq, hval, hfl]

/-- C5 witness: the theorem applied at `last_progress = 0`. -/
theorem claim_C5_witness : estimate_complex_progress 150 30 0 = some 0 :=
  (claim_C5_estimator_boundary_formula 0 (by norm_num)).2.2

/-- C2 counterexample: a line whose parenthesized percentage is 150 is
not clamped into `[0,100]` — the match is discarded and, no other
pattern matching, `parse_progress` yields no signal instead of 100. -/
theorem claim_C2_counterexample :
    parse_progress "(150%)" = none ∧ parse_progress "(150%)" ≠ some 100 := by
  constructor <;> decide

/-- C2 (amended): every value `parse_progress` returns lies in
`[0,100]`, and when no pattern matches it returns no signal, not 0;
but a percentage-pattern match with a value outside `[0,100]` is
discarded (the pattern falls through), not clamped — only the `A/B`
fraction value is clamped into the range. -/
theorem claim_C2_parsed_values_in_range :
    (∀ (s : String) (p : Nat), parse_progress s = some p → p ≤ 100) ∧
    parse_progress "(150%)" = none := by
  refine ⟨fun s => parse_progress_le_aux s, by decide⟩

/-- C2 witness: the range bound applied at a concrete parsed line. -/
theorem claim_C2_witness : (45 : Nat) ≤ 100 :=
  claim_C2_parsed_values_in_range.1 "45% complete" 45 (by decide)

/-- C6: the patterns are tried in precedence order and the first match
wins — whenever the leftmost `\((\d{1,3})%\)` match yields `n ≤ 100`,
`parse_progress` returns `n`, whatever later patterns would match;
"Pulling: x.jpg... (37%)" returns 37 and "No progress info here"
returns no signal, not 0. -/
theorem claim_C6_paren_pct_precedence :
    (∀ (s : String) (n : Nat), searchParenPct s.data = some n → n ≤ 100 →
      parse_progress s = some n) ∧
    parse_progress "Pulling: x.jpg... (37%)" = some 37 ∧
    parse_progress "No progress info here" = none := by
  refine ⟨?_, by decide, by decide⟩
  intro s n h hle
  unfold parse_progress
  rw [h]
  simp [firstOf, pctGate, hle]

/-- C6 witness: a line where the fraction `5/8` would also match, yet
the parenthesized percentage wins. -/
theorem claim_C6_witness : parse_progress "done: 5/8 (55%)" = some 55 :=
  claim_C6_paren_pct_precedence.1 "done: 5/8 (55%)" 55 (by decide) (by decide)

/-- C7 counterexample: for the line "57/100" the claimed value
`floor(A/B*100) = 57*100/100 = 57` is not returned: Python evaluates
`int((57/100)*100)` in binary floating point, where `57/100` rounds
below `0.57` and the truncation yields 56. -/
theorem claim_C7_counterexample :
    parse_progress "57/100" = some 56 ∧
    parse_progress "57/100" ≠ some (57 * 100 / 100) := by
  constructor <;> decide

/-- C7 (amended): `parse_progress` is total and never throws: the
fraction branch is guarded so `B = 0` (as in "0/0 done") yields no
signal instead of raising, every value it produces is clamped to
`[0,100]`, and "1024/2048 KB transferred" returns 50; but the value is
the truncation of the IEEE-754 double computation `int((A/B)*100)`,
which can fall one below the exact `floor(A/B*100)` (e.g. "57/100"
yields 56, not 57). -/
theorem claim_C7_fraction_total_guarded_clamped :
    (∀ a : Nat, pyFracPct a 0 = none) ∧
    (∀ a b p : Nat, pyFracPct a b = some p → p ≤ 100) ∧
    parse_progress "1024/2048 KB transferred" = some 50 ∧
    parse_progress "0/0 done" = none := by
  refine ⟨?_, fun a b => pyFracPct_le a b, by decide, by decide⟩
  intro a
  simp [pyFracPct, pyDiv]

/-- C7 witness: the clamp bound applied at the concrete fraction
`1/3`, whose float computation yields 33. -/
theorem claim_C7_witness : (33 : Nat) ≤ 100 :=
  claim_C7_fraction_total_guarded_clamped.2.1 1 3 33 (by decide)

/-- C8: any line containing a parenthesized byte count
(`\(\s*\d+\s+bytes\b`) on which every earlier pattern block falls
through (no percentage or fraction value is produced) is treated as a
completion marker: `parse_progress` returns exactly 100. -/
theorem claim_C8_bytes_completion_marker :
    (∀ s : String,
      pctGate (searchParenPct s.data) = none →
      pctGate (searchPctComplete s.data) = none →
      pctGate (searchTransferredPct s.data) = none →
      pctGate (searchFilesPulledPct s.data) = none →
      fracGate (searchFraction s.data) = none →
      transferringGate (searchTransferring s.data) (searchPct s.data) = none →
      searchBytes s.data = true →
      parse_progress s = some 100) ∧
    parse_progress "(1048576 bytes in 2.5s)" = some 100 := by
  refine ⟨?_, by decide⟩
  intro s h1 h2 h3 h4 h5 h6 hb
  unfold parse_progress parseChain2 parseChain3 parseChain4 parseChain5 parseChain6
  rw [h1, h2, h3, h4, h5, h6]
  simp [firstOf, hb]

/-- C8 witness: the theorem applied at the spec's example line. -/
theorem claim_C8_witness : parse_progress "( 999 bytes in 0.1s)" = some 100 :=
  claim_C8_bytes_completion_marker.1 "( 999 bytes in 0.1s)"
    (by decide) (by decide) (by decide) (by decide) (by decide) (by decide) (by decide)

/-! ## Helper lemmas about the deduplication planner -/

theorem fdfLoop_eq_filter (oracle : String → Option String)
    (tvals : List String) (l : List String) :
    fdfLoop oracle tvals l =
      (l.filter (fun s => !(isDuplicate oracle tvals s)),
       l.filter (isDuplicate oracle tvals)) := by
  induction l with
  | nil => rfl
  | cons s rest ih =>
    by_cases h : isDuplicate oracle tvals s = true
    · simp [fdfLoop, ih, List.filter_cons, h]
    · simp [fdfLoop, ih, List.filter_cons, h]

theorem isDuplicate_iff (oracle : String → Option String)
    (tvals : List String) (s : String) :
    isDuplicate oracle tvals s = true ↔
      ∃ h, truthy (oracle s) = some h ∧ h ∈ tvals := by
  unfold isDuplicate
  cases ht : truthy (oracle s) with
  | none => simp
  | some hh => simp [List.contains, List.elem_iff]

theorem count_partition (p : String → Bool) (l : List String) (x : String) :
    (l.filter (fun a => !(p a))).count x + (l.filter p).count x = l.count x := by
  by_cases h : p x = true
  · have h1 : (l.filter (fun a => !(p a))).count x = 0 := by
      rw [List.count_eq_zero]
      intro hmem
      have := (List.mem_filter.mp hmem).2
      simp [h] at this
    rw [h1, List.count_filter h, Nat.zero_add]
  · have h1 : (l.filter p).count x = 0 := by
      rw [List.count_eq_zero]
      intro hmem
      exact h ((List.mem_filter.mp hmem).2)
    rw [h1, List.count_filter (by simp [h]), Nat.add_zero]

/-- C3: a source path is classified as a duplicate iff its truthy
digest is a member of the set of target digests (file names and
positions are irrelevant); a path whose digest cannot be computed goes
to the transfer list and such failures never abort the call (the
oracle failure is local to the file); and on the spec's example the
planner returns `files_to_transfer = [b.txt]`,
`duplicate_files = [a.txt]`. -/
theorem claim_C3_duplicate_iff_digest_in_target_set
    (oracle : String → Option String) (src tgt : List String) (s : String) :
    (s ∈ (find_duplicate_files oracle src tgt).2 ↔
      s ∈ src ∧ ∃ h, truthy (oracle s) = some h ∧
        h ∈ targetHashValues oracle tgt) ∧
    (s ∈ src → oracle s = none → s ∈ (find_duplicate_files oracle src tgt).1) ∧
    find_duplicate_files exampleOracle ["a.txt", "b.txt"] ["r1.txt"] =
      (["b.txt"], ["a.txt"]) := by
  refine ⟨?_, ?_, by decide⟩
  · rw [find_duplicate_files, fdfLoop_eq_filter]
    simp [List.mem_filter, isDuplicate_iff]
  · intro hs hnone
    rw [find_duplicate_files, fdfLoop_eq_filter]
    simp only [List.mem_filter]
    refine ⟨hs, ?_⟩
    simp [isDuplicate, truthy, hnone]

/-- C3 witness: a path whose digest computation fails is transferred. -/
theorem claim_C3_witness :
    "c.txt" ∈ (find_duplicate_files exampleOracle ["c.txt"] ["r1.txt"]).1 :=
  (claim_C3_duplicate_iff_digest_in_target_set exampleOracle ["c.txt"]
    ["r1.txt"] "c.txt").2.1 (by decide) (by decide)

/-- C9: the two lists returned by `find_duplicate_files` form an
order-preserving partition of the source list — each is a sublist of
the sources (relative order preserved), every source path lands in
exactly one of them (counted with multiplicity), and a target path
that is not itself a source never appears in either — regardless of
digest failures or repeated digests. -/
theorem claim_C9_order_preserving_partition
    (oracle : String → Option String) (src tgt : List String) :
    (find_duplicate_files oracle src tgt).1.Sublist src ∧
    (find_duplicate_files oracle src tgt).2.Sublist src ∧
    (∀ x, (find_duplicate_files oracle src tgt).1.count x +
      (find_duplicate_files oracle src tgt).2.count x = src.count x) ∧
    (∀ t, t ∈ tgt → t ∉ src →
      t ∉ (find_duplicate_files oracle src tgt).1 ∧
      t ∉ (find_duplicate_files oracle src tgt).2) := by
  rw [find_duplicate_files, fdfLoop_eq_filter]
  refine ⟨List.filter_sublist _, List.filter_sublist _, ?_, ?_⟩
  · intro x
    exact count_partition (isDuplicate oracle (targetHashValues oracle tgt)) src x
  · intro t ht hns
    constructor <;> intro hmem <;> exact hns (List.mem_of_mem_filter hmem)

/-- C9 witness: the target path never appears in either output list. -/
theorem claim_C9_witness :
    "r1.txt" ∉ (find_duplicate_files exampleOracle ["a.txt", "b.txt"] ["r1.txt"]).1 ∧
    "r1.txt" ∉ (find_duplicate_files exampleOracle ["a.txt", "b.txt"] ["r1.txt"]).2 :=
  (claim_C9_order_preserving_partition exampleOracle ["a.txt", "b.txt"]
    ["r1.txt"]).2.2.2 "r1.txt" (by decide) (by decide)

/-- C4: `cancel_transfer` returns false (without raising — the model
is total) whenever no child-process handle is live or the non-blocking
poll reports the process as already exited; otherwise it terminates,
waits at most the 2-second grace period, force-kills and blocks if the
wait timed out, and returns true; in every case the handle slot is
`None` afterward. -/
theorem claim_C4_cancel_spec (h : Option ChildProc) :
    (cancel_transfer h).2.1 = none ∧
    (h = none → cancel_transfer h = (false, none, [])) ∧
    (∀ p, h = some p → p.poll.isSome = true →
      cancel_transfer h = (false, none, [])) ∧
    (∀ p, h = some p → p.poll = none →
      (cancel_transfer h).1 = true ∧
      (cancel_transfer h).2.2 =
        [CancelAct.terminate, CancelAct.waitGrace 2] ++
          (if p.gracefulExit then [] else [CancelAct.kill, CancelAct.waitBlock])) := by
  cases h with
  | none =>
    refine ⟨rfl, fun _ => rfl, ?_, ?_⟩ <;> intro p hp <;> exact absurd hp (by simp)
  | some p =>
    by_cases hp : p.poll.isSome = true
    · refine ⟨by simp [cancel_transfer, hp], by simp, ?_, ?_⟩
      · intro q hq _
        simp [cancel_transfer, hp]
      · intro q hq hnone
        cases hq
        rw [hnone] at hp
        exact absurd hp (by simp)
    · refine ⟨by simp [cancel_transfer, hp], by simp, ?_, ?_⟩
      · intro q hq hsome
        cases hq
        exact absurd hsome hp
      · intro q hq hnone
        cases hq
        constructor <;> simp [cancel_transfer, hnone]

/-- C4 witness: cancelling after the child has already exited
(poll reports exit code 0) returns false and clears the handle. -/
theorem claim_C4_witness :
    cancel_transfer (some ⟨some 0, true⟩) = (false, none, []) :=
  (claim_C4_cancel_spec (some ⟨some 0, true⟩)).2.2.1 ⟨some 0, true⟩ rfl (by decide)

/-- C10: when the normalized local destination already exists,
`pull_file` (and likewise `pull_folder`) returns False having
performed no action at all — no directory creation and no adb pull —
leaving the existing local file or folder untouched. -/
theorem claim_C10_pull_skips_existing_target (env : FsEnv)
    (remote loc : String)
    (h : env.pathExists (env.normpath loc) = true) :
    pull_file env remote loc = (false, []) ∧
    pull_folder env remote loc = (false, []) := by
  constructor <;> simp [pull_file, pull_folder, h]

/-- C10 witness: the theorem applied in an environment whose
filesystem reports the destination as existing. -/
theorem claim_C10_witness :
    pull_file existingTargetEnv "/sdcard/DCIM" "backup" = (false, []) ∧
    pull_folder existingTargetEnv "/sdcard/DCIM" "backup" = (false, []) :=
  claim_C10_pull_skips_existing_target existingTargetEnv "/sdcard/DCIM" "backup" rfl

end AdbCore
